import Mathlib

/-!
Shallow embedding of the `escrow` ink! contract (src/lib.rs of btn-group/az-escrow).

Modelling conventions:
- `AccountId` is `Nat`; `Balance` (`u128` in the source) is `Int` so that the
  non-negativity of `available_amount` is expressible; every balance that
  enters through the external interface is non-negative (`Op.valid`), matching
  the unsigned machine type.
- `ink::storage::Mapping<K, V>` is embedded as the function `K → Option V`;
  `insert` is a functional update, `get` is application.
- Machine ids stay `Nat` with explicit bounds: `u32` arithmetic is guarded by
  `u32Mod = 2^32` (`checked_mul`/`checked_sub` return `Option`), `u64` by
  `u64Mod = 2^64`.
- A Rust `panic` (the `.unwrap()` inside `index`, the transfer failure inside
  `withdraw_from_listing`) aborts the transaction; the host reverts all writes
  of the call.  `index` therefore returns `Option (List _)` with `none` for
  the panic, and `withdraw_from_listing` returns the pre-call state together
  with the `Outcome.fatal` marker when the native transfer fails.
- `Self::env().caller()` and `self.env().transferred_value()` are passed as
  explicit arguments.
-/

abbrev AccountId := Nat
abbrev Balance := Int

def u32Mod : Nat := 4294967296
def u32Max : Nat := 4294967295
def u64Mod : Nat := 18446744073709551616

inductive EscrowError where
  | AmountUnavailable
  | InsufficientFunds
  | ListingCanOnlyBeCreatedByAVendor
  | ListingLimitReached
  | ListingNotFound
  | OrderCancelled
  | OrderFinalised
  | OrderNotFound
  | VendorAlreadyExists
  | Unauthorised
deriving DecidableEq

/-- Result of one external call: normal return, typed error, or a panic
(`fatal`) that aborts the whole transaction. -/
inductive Outcome where
  | ok
  | err (e : EscrowError)
  | fatal
deriving DecidableEq

structure Listing where
  id : Nat
  vendor : AccountId
  available_amount : Balance
deriving DecidableEq

structure Listings where
  values : Nat → Option Listing
  length : Nat

/-- Order statuses: 0 Open, 1 PendingVerification, 2 Finalised, 3 Cancelled,
4 Disputed; stored as a raw u8. -/
structure Order where
  id : Nat
  buyer : AccountId
  vendor : AccountId
  amount : Balance
  payment_verification : Option String
  status : Nat
deriving DecidableEq

structure Orders where
  values : Nat → Option Order
  length : Nat

structure Vendor where
deriving DecidableEq

/-- `checked_mul` on a machine integer of modulus `m`. -/
def checkedMul (m a b : Nat) : Option Nat :=
  if a * b < m then some (a * b) else none

/-- `checked_sub` (the result is exact when `b ≤ a`). -/
def checkedSub (a b : Nat) : Option Nat :=
  if b ≤ a then some (a - b) else none

/-- The loop `for i in (start..=end).rev() { out.push(values.get(i).unwrap()) }`
with `n = end + 1 - start` iterations: traverses ids from the top down,
returning `none` (panic) at the first missing record. -/
def getRangeRev {α : Type} (values : Nat → Option α) (start : Nat) : Nat → Option (List α)
  | 0 => some []
  | n + 1 =>
    match values (start + n), getRangeRev values start n with
    | some v, some rest => some (v :: rest)
    | _, _ => none

namespace Listings

/-- `Listings::index(page: u32, size: u8)` from src/lib.rs lines 79-106. -/
def index (s : Listings) (page size : Nat) : Option (List Listing) :=
  if s.length = 0 then some []
  else
    match checkedMul u32Mod page size with
    | none => some []
    | some listings_to_skip =>
      match checkedSub s.length listings_to_skip with
      | none => some []
      | some ending_index =>
        let starting_index := ending_index - size
        getRangeRev s.values starting_index (ending_index + 1 - starting_index)

/-- `Listings::create`: insert at key `length`; increment `length` only when
no record previously existed at that key. -/
def create (s : Listings) (v : Listing) : Listings :=
  { values := fun i => if i = s.length then some v else s.values i
    length := if (s.values s.length).isNone then s.length + 1 else s.length }

/-- `Listings::update`: overwrite the record at `value.id`. -/
def update (s : Listings) (v : Listing) : Listings :=
  { values := fun i => if i = v.id then some v else s.values i
    length := s.length }

end Listings

namespace Orders

/-- `Orders::index(page: u64, size: u8)` from src/lib.rs lines 147-174. -/
def index (s : Orders) (page size : Nat) : Option (List Order) :=
  if s.length = 0 then some []
  else
    match checkedMul u64Mod page size with
    | none => some []
    | some orders_to_skip =>
      match checkedSub s.length orders_to_skip with
      | none => some []
      | some ending_index =>
        let starting_index := ending_index - size
        getRangeRev s.values starting_index (ending_index + 1 - starting_index)

/-- `Orders::create`: insert at key `length`; increment `length` only when no
record previously existed at that key. -/
def create (s : Orders) (v : Order) : Orders :=
  { values := fun i => if i = s.length then some v else s.values i
    length := if (s.values s.length).isNone then s.length + 1 else s.length }

/-- `Orders::update`: overwrite the record at `value.id`. -/
def update (s : Orders) (v : Order) : Orders :=
  { values := fun i => if i = v.id then some v else s.values i
    length := s.length }

end Orders

/-- The persisted contract state. -/
structure Escrow where
  admin : AccountId
  listings : Listings
  orders : Orders
  vendors : AccountId → Option Vendor

namespace Escrow

/-- The constructor `Escrow::new`. -/
def new (caller : AccountId) : Escrow :=
  { admin := caller
    listings := { values := fun _ => none, length := 0 }
    orders := { values := fun _ => none, length := 0 }
    vendors := fun _ => none }

/-- `Escrow::create_listing` (src/lib.rs lines 229-253). -/
def create_listing (s : Escrow) (caller : AccountId) : Escrow × Outcome :=
  if s.listings.length = u32Max then (s, .err .ListingLimitReached)
  else if (s.vendors caller).isNone then (s, .err .ListingCanOnlyBeCreatedByAVendor)
  else
    let listing : Listing :=
      { id := s.listings.length, vendor := caller, available_amount := 0 }
    ({ s with listings := s.listings.create listing }, .ok)

/-- `Escrow::create_order` (src/lib.rs lines 255-295). -/
def create_order (s : Escrow) (caller : AccountId) (listing_id : Nat)
    (amount : Balance) : Escrow × Outcome :=
  match s.listings.values listing_id with
  | none => (s, .err .ListingNotFound)
  | some listing =>
    if listing.vendor = caller then (s, .err .Unauthorised)
    else if listing.available_amount < amount then (s, .err .AmountUnavailable)
    else
      let listing2 :=
        { listing with available_amount := listing.available_amount - amount }
      let s2 := { s with listings := s.listings.update listing2 }
      let order : Order :=
        { id := s2.orders.length, buyer := caller, vendor := listing.vendor
          amount := amount, payment_verification := none, status := 0 }
      ({ s2 with orders := s2.orders.create order }, .ok)

/-- `Escrow::create_vendor` (src/lib.rs lines 297-312). -/
def create_vendor (s : Escrow) (caller : AccountId) : Escrow × Outcome :=
  if (s.vendors caller).isSome then (s, .err .VendorAlreadyExists)
  else
    ({ s with vendors := fun a => if a = caller then some Vendor.mk else s.vendors a }, .ok)

/-- `Escrow::deposit_into_listing` (src/lib.rs lines 314-329);
`transferred_value` is the native value attached to the call. -/
def deposit_into_listing (s : Escrow) (caller : AccountId) (id : Nat)
    (transferred_value : Balance) : Escrow × Outcome :=
  match s.listings.values id with
  | none => (s, .err .ListingNotFound)
  | some listing =>
    if listing.vendor ≠ caller then (s, .err .Unauthorised)
    else
      let listing2 :=
        { listing with available_amount := listing.available_amount + transferred_value }
      ({ s with listings := s.listings.update listing2 }, .ok)

/-- `Escrow::update_order_payment_verification` (src/lib.rs lines 331-361). -/
def update_order_payment_verification (s : Escrow) (caller : AccountId)
    (order_id : Nat) (payment_verification : String) : Escrow × Outcome :=
  match s.orders.values order_id with
  | none => (s, .err .OrderNotFound)
  | some order =>
    if order.buyer ≠ caller then (s, .err .Unauthorised)
    else if order.status = 2 then (s, .err .OrderFinalised)
    else if order.status = 3 then (s, .err .OrderCancelled)
    else
      let order2 :=
        { order with payment_verification := some payment_verification, status := 1 }
      ({ s with orders := s.orders.update order2 }, .ok)

/-- `Escrow::withdraw_from_listing` (src/lib.rs lines 363-392).  `transfer_ok`
is the outcome of the host transfer primitive; on failure the code panics and
the host reverts every write of the call, so the committed state is the
pre-call state with marker `fatal`. -/
def withdraw_from_listing (s : Escrow) (caller : AccountId) (id : Nat)
    (amount : Balance) (transfer_ok : Bool) : Escrow × Outcome :=
  match s.listings.values id with
  | none => (s, .err .ListingNotFound)
  | some listing =>
    if listing.vendor ≠ caller then (s, .err .Unauthorised)
    else if listing.available_amount < amount then (s, .err .InsufficientFunds)
    else if transfer_ok then
      let listing2 :=
        { listing with available_amount := listing.available_amount - amount }
      ({ s with listings := s.listings.update listing2 }, .ok)
    else (s, .fatal)

end Escrow

/-- One external call of the interface, with its caller and host-supplied
values. -/
inductive Op where
  | create_vendor (caller : AccountId)
  | create_listing (caller : AccountId)
  | deposit_into_listing (caller : AccountId) (id : Nat) (transferred_value : Balance)
  | create_order (caller : AccountId) (listing_id : Nat) (amount : Balance)
  | update_order_payment_verification (caller : AccountId) (order_id : Nat) (pv : String)
  | withdraw_from_listing (caller : AccountId) (id : Nat) (amount : Balance) (transfer_ok : Bool)

/-- Balances crossing the external interface are `u128`, hence non-negative. -/
def Op.valid : Op → Prop
  | .deposit_into_listing _ _ v => 0 ≤ v
  | .create_order _ _ a => 0 ≤ a
  | .withdraw_from_listing _ _ a _ => 0 ≤ a
  | _ => True

def Escrow.applyOp (s : Escrow) : Op → Escrow × Outcome
  | .create_vendor c => s.create_vendor c
  | .create_listing c => s.create_listing c
  | .deposit_into_listing c i v => s.deposit_into_listing c i v
  | .create_order c l a => s.create_order c l a
  | .update_order_payment_verification c o pv => s.update_order_payment_verification c o pv
  | .withdraw_from_listing c i a t => s.withdraw_from_listing c i a t

/-- States reachable from a fresh contract by sequences of external calls. -/
inductive Reachable : Escrow → Prop where
  | init (admin : AccountId) : Reachable (Escrow.new admin)
  | step {s : Escrow} (op : Op) : Reachable s → op.valid → Reachable (s.applyOp op).1

/-! ### Concrete fixtures -/

/-- A listing record with the given id (vendor 100, empty balance). -/
def listingAt (i : Nat) : Listing := { id := i, vendor := 100, available_amount := 0 }

/-- A listing ledger whose records occupy exactly the ids 0..9 (length 10). -/
def L10 : Listings :=
  { values := fun i => if i < 10 then some (listingAt i) else none, length := 10 }

/-- An order record with the given id. -/
def orderAt (i : Nat) : Order :=
  { id := i, buyer := 1, vendor := 2, amount := 0, payment_verification := none, status := 0 }

/-- An order ledger whose records occupy exactly the ids 0..9 (length 10). -/
def O10 : Orders :=
  { values := fun i => if i < 10 then some (orderAt i) else none, length := 10 }

/-- A dense order ledger of length 2^33: its records occupy exactly the ids
0..2^33 - 1, so a valid skip can exceed the u32 range while staying inside
the u64 id width of the order ledger. -/
def OBig : Orders :=
  { values := fun i => if i < 8589934592 then some (orderAt i) else none
    length := 8589934592 }

/-- An order whose raw status byte, 77, lies outside the five documented
states. -/
def oddOrder : Order :=
  { id := 0, buyer := 7, vendor := 5, amount := 4, payment_verification := none, status := 77 }

/-- A state holding only `oddOrder`. -/
def sOdd : Escrow :=
  { admin := 0
    listings := { values := fun _ => none, length := 0 }
    orders := { values := fun i => if i = 0 then some oddOrder else none, length := 1 }
    vendors := fun _ => none }

/-- A state whose listing ledger is at capacity (`length = u32::MAX`) and in
which every account is a registered vendor. -/
def sFull : Escrow :=
  { admin := 0
    listings := { values := fun _ => none, length := u32Max }
    orders := { values := fun _ => none, length := 0 }
    vendors := fun _ => some Vendor.mk }

/-- Reachable state: account 5 registers as a vendor, creates listing 0 and
deposits 10 into it. -/
def sDemo : Escrow :=
  ((((Escrow.new 0).applyOp (Op.create_vendor 5)).1.applyOp
    (Op.create_listing 5)).1.applyOp (Op.deposit_into_listing 5 0 10)).1

/-- `sDemo` after buyer 7 places an order of 4 on listing 0. -/
def sOrd : Escrow := (sDemo.create_order 7 0 4).1

/-- Reachable state: account 5 registers as a vendor. -/
def s1Demo : Escrow := ((Escrow.new 0).applyOp (Op.create_vendor 5)).1

/-! ### State invariants -/

/-- Listing-ledger invariant: each record carries its key as `id` and a
non-negative balance, and the occupied keys are exactly `0..length-1`. -/
def ListingsGood (L : Listings) : Prop :=
  (∀ i l, L.values i = some l → l.id = i ∧ 0 ≤ l.available_amount) ∧
  (∀ i, (L.values i).isSome ↔ i < L.length)

/-- Order-ledger invariant: each record carries its key as `id`, and the
occupied keys are exactly `0..length-1`. -/
def OrdersGood (O : Orders) : Prop :=
  (∀ i o, O.values i = some o → o.id = i) ∧
  (∀ i, (O.values i).isSome ↔ i < O.length)

/-- Invariant of the whole contract state. -/
def GoodState (s : Escrow) : Prop := ListingsGood s.listings ∧ OrdersGood s.orders

/-! ### Helper lemmas -/

/-- The reverse-pagination loop returns normally when every id it visits holds
a record. -/
theorem getRangeRev_isSome {α : Type} (values : Nat → Option α) (start : Nat)
    (n : Nat) (h : ∀ k, k < n → (values (start + k)).isSome) :
    (getRangeRev values start n).isSome = true := by
  induction n with
  | zero => simp [getRangeRev]
  | succ n ih =>
    obtain ⟨v, hv⟩ := Option.isSome_iff_exists.mp (h n (Nat.lt_succ_self n))
    obtain ⟨l, hl⟩ := Option.isSome_iff_exists.mp (ih (fun k hk => h k (Nat.lt_succ_of_lt hk)))
    simp [getRangeRev, hv, hl]

/-- `Listings.update` with a well-formed replacement record preserves the
listing-ledger invariant. -/
theorem listingsGood_update (L : Listings) (h : ListingsGood L) (i : Nat) (l0 l : Listing)
    (hm : L.values i = some l0) (hid : l.id = l0.id) (hnn : 0 ≤ l.available_amount) :
    ListingsGood (L.update l) := by
  have hi : l0.id = i := (h.1 i l0 hm).1
  have hlt : i < L.length := (h.2 i).mp (by simp [hm])
  constructor
  · intro j lj hj
    simp only [Listings.update] at hj
    by_cases hji : j = l.id
    · rw [if_pos hji] at hj
      cases hj
      exact ⟨hji.symm, hnn⟩
    · rw [if_neg hji] at hj
      exact h.1 j lj hj
  · intro j
    simp only [Listings.update]
    by_cases hji : j = l.id
    · rw [if_pos hji]
      simp only [Option.isSome_some, true_iff]
      omega
    · rw [if_neg hji]
      exact h.2 j

/-- `Listings.create` at the next id preserves the invariant and increments
the length. -/
theorem listingsGood_create (L : Listings) (h : ListingsGood L) (l : Listing)
    (hid : l.id = L.length) (hnn : 0 ≤ l.available_amount) :
    ListingsGood (L.create l) ∧ (L.create l).length = L.length + 1 := by
  have hempty : (L.values L.length).isNone = true := by
    have hiff := h.2 L.length
    simp only [Option.isNone_iff_eq_none]
    cases hv : L.values L.length with
    | none => rfl
    | some v => rw [hv] at hiff; simp at hiff
  refine ⟨⟨?_, ?_⟩, ?_⟩
  · intro j lj hj
    simp only [Listings.create] at hj
    by_cases hji : j = L.length
    · rw [if_pos hji] at hj
      cases hj
      exact ⟨by omega, hnn⟩
    · rw [if_neg hji] at hj
      exact h.1 j lj hj
  · intro j
    simp only [Listings.create, hempty, if_pos]
    by_cases hji : j = L.length
    · rw [if_pos hji]
      simp only [Option.isSome_some, true_iff]
      omega
    · rw [if_neg hji]
      rw [h.2 j]
      omega
  · simp [Listings.create, hempty]

/-- `Orders.update` with a well-formed replacement record preserves the
order-ledger invariant. -/
theorem ordersGood_update (O : Orders) (h : OrdersGood O) (i : Nat) (o0 o : Order)
    (hm : O.values i = some o0) (hid : o.id = o0.id) :
    OrdersGood (O.update o) := by
  have hi : o0.id = i := h.1 i o0 hm
  have hlt : i < O.length := (h.2 i).mp (by simp [hm])
  constructor
  · intro j oj hj
    simp only [Orders.update] at hj
    by_cases hji : j = o.id
    · rw [if_pos hji] at hj
      cases hj
      exact hji.symm
    · rw [if_neg hji] at hj
      exact h.1 j oj hj
  · intro j
    simp only [Orders.update]
    by_cases hji : j = o.id
    · rw [if_pos hji]
      simp only [Option.isSome_some, true_iff]
      omega
    · rw [if_neg hji]
      exact h.2 j

/-- `Orders.create` at the next id preserves the invariant and increments the
length. -/
theorem ordersGood_create (O : Orders) (h : OrdersGood O) (o : Order)
    (hid : o.id = O.length) :
    OrdersGood (O.create o) ∧ (O.create o).length = O.length + 1 := by
  have hempty : (O.values O.length).isNone = true := by
    have hiff := h.2 O.length
    simp only [Option.isNone_iff_eq_none]
    cases hv : O.values O.length with
    | none => rfl
    | some v => rw [hv] at hiff; simp at hiff
  refine ⟨⟨?_, ?_⟩, ?_⟩
  · intro j oj hj
    simp only [Orders.create] at hj
    by_cases hji : j = O.length
    · rw [if_pos hji] at hj
      cases hj
      omega
    · rw [if_neg hji] at hj
      exact h.1 j oj hj
  · intro j
    simp only [Orders.create, hempty, if_pos]
    by_cases hji : j = O.length
    · rw [if_pos hji]
      simp only [Option.isSome_some, true_iff]
      omega
    · rw [if_neg hji]
      rw [h.2 j]
      omega
  · simp [Orders.create, hempty]

/-- A fresh contract satisfies the state invariant. -/
theorem goodState_new (admin : AccountId) : GoodState (Escrow.new admin) := by
  refine ⟨⟨?_, ?_⟩, ⟨?_, ?_⟩⟩ <;> intro i <;> simp [Escrow.new]

/-- Every external call preserves the state invariant. -/
theorem goodState_step {s : Escrow} (h : GoodState s) (op : Op) (hv : op.valid) :
    GoodState (s.applyOp op).1 := by
  obtain ⟨hL, hO⟩ := h
  cases op with
  | create_vendor c =>
    simp only [Escrow.applyOp, Escrow.create_vendor]
    split
    · exact ⟨hL, hO⟩
    · exact ⟨hL, hO⟩
  | create_listing c =>
    simp only [Escrow.applyOp, Escrow.create_listing]
    split
    · exact ⟨hL, hO⟩
    split
    · exact ⟨hL, hO⟩
    exact ⟨(listingsGood_create s.listings hL _ rfl le_rfl).1, hO⟩
  | deposit_into_listing c i v =>
    simp only [Op.valid] at hv
    simp only [Escrow.applyOp, Escrow.deposit_into_listing]
    cases hm : s.listings.values i with
    | none => exact ⟨hL, hO⟩
    | some listing =>
      simp only
      split
      · exact ⟨hL, hO⟩
      · refine ⟨listingsGood_update s.listings hL i listing _ hm rfl ?_, hO⟩
        have hnn := (hL.1 i listing hm).2
        have hv2 : (0 : Int) ≤ v := hv
        exact add_nonneg hnn hv2
  | create_order c lid a =>
    simp only [Op.valid] at hv
    simp only [Escrow.applyOp, Escrow.create_order]
    cases hm : s.listings.values lid with
    | none => exact ⟨hL, hO⟩
    | some listing =>
      simp only
      split
      · exact ⟨hL, hO⟩
      split
      · exact ⟨hL, hO⟩
      rename_i hvv hlt
      refine ⟨listingsGood_update s.listings hL lid listing _ hm rfl ?_,
        (ordersGood_create s.orders hO _ rfl).1⟩
      exact sub_nonneg.mpr (le_of_not_lt hlt)
  | update_order_payment_verification c oid pv =>
    simp only [Escrow.applyOp, Escrow.update_order_payment_verification]
    cases hm : s.orders.values oid with
    | none => exact ⟨hL, hO⟩
    | some order =>
      simp only
      split
      · exact ⟨hL, hO⟩
      split
      · exact ⟨hL, hO⟩
      split
      · exact ⟨hL, hO⟩
      exact ⟨hL, ordersGood_update s.orders hO oid order _ hm rfl⟩
  | withdraw_from_listing c i a t =>
    simp only [Op.valid] at hv
    simp only [Escrow.applyOp, Escrow.withdraw_from_listing]
    cases hm : s.listings.values i with
    | none => exact ⟨hL, hO⟩
    | some listing =>
      simp only
      split
      · exact ⟨hL, hO⟩
      split
      · exact ⟨hL, hO⟩
      split
      · rename_i hvv hlt ht
        refine ⟨listingsGood_update s.listings hL i listing _ hm rfl ?_, hO⟩
        exact sub_nonneg.mpr (le_of_not_lt hlt)
      · exact ⟨hL, hO⟩

/-- Every reachable state satisfies the invariant. -/
theorem reachable_good {s : Escrow} (h : Reachable s) : GoodState s := by
  induction h with
  | init a => exact goodState_new a
  | step op hr hv ih => exact goodState_step ih op hv

/-- The state `sDemo` is reachable from a fresh contract. -/
theorem sDemo_reachable : Reachable sDemo := by
  unfold sDemo
  exact Reachable.step _
    (Reachable.step _ (Reachable.step _ (Reachable.init 0) trivial) trivial)
    (show (0 : Int) ≤ 10 by decide)

/-- The state `s1Demo` is reachable from a fresh contract. -/
theorem s1Demo_reachable : Reachable s1Demo := by
  unfold s1Demo
  exact Reachable.step _ (Reachable.init 0) trivial

/-! ### Claims -/

/-- C1 (pagination concrete example). On the ledger `L10` whose records occupy
exactly the ids 0..9 (length 10), the code computes `ending_index = length -
skip`; at `page = 0, size = 5` this is id 10, which holds no record, so the
`.unwrap()` inside the loop panics (modelled as `none`) instead of returning
`[9,8,7,6,5,4]`; at `page = 1, size = 5` it returns the records with ids
`[5,4,3,2,1,0]`, not `[4,3,2,1,0]`; at `page = 5, size = 5` it returns the
empty sequence as claimed. -/
theorem index_page_zero_panics :
    L10.length = 10 ∧ (L10.values 0).isSome = true ∧
    L10.values 9 = some (listingAt 9) ∧ L10.values 10 = none ∧
    L10.index 0 5 = none ∧
    (L10.index 1 5).map (List.map Listing.id) = some [5, 4, 3, 2, 1, 0] ∧
    L10.index 5 5 = some [] := by decide

/-- C2, counterexample. On `L10` (records exactly at ids 0..9, length 10) with
`page = 0, size = 5`, all hypotheses of the claim hold (`page * size = 0` does
not overflow, `0 ≤ length`, `length > 0`), yet the computed range is
`5..=10`, id 10 holds no record, and `index` panics (returns `none`) instead
of returning normally. -/
theorem index_totality_counterexample :
    0 < L10.length ∧ 0 * 5 < u32Mod ∧ 0 * 5 ≤ L10.length ∧
    (L10.values 10).isSome = false ∧ L10.index 0 5 = none := by decide

/-- C2 (amended): pagination totality holds once `skip = page * size ≥ 1` is
additionally required. For both ledgers, if the stored records occupy exactly
the ids `0..length-1`, `1 ≤ page * size`, the multiplication does not
overflow the id width, `page * size ≤ length` and `length > 0`, then every id
in the computed range `start..=end` refers to an existing record and `index`
returns normally. -/
theorem index_totality_amended (L : Listings) (O : Orders) (page size : Nat)
    (hone : 1 ≤ page * size) :
    ((∀ i, (L.values i).isSome ↔ i < L.length) → 0 < L.length →
      page * size < u32Mod → page * size ≤ L.length →
      (L.index page size).isSome) ∧
    ((∀ i, (O.values i).isSome ↔ i < O.length) → 0 < O.length →
      page * size < u64Mod → page * size ≤ O.length →
      (O.index page size).isSome) := by
  constructor
  · intro hL hLpos hLmul hLskip
    unfold Listings.index
    rw [if_neg (by omega)]
    unfold checkedMul
    rw [if_pos hLmul]
    dsimp only
    unfold checkedSub
    rw [if_pos hLskip]
    dsimp only
    apply getRangeRev_isSome
    intro k hk
    rw [hL]
    generalize hm : page * size = m at hone hLskip hk ⊢
    omega
  · intro hO hOpos hOmul hOskip
    unfold Orders.index
    rw [if_neg (by omega)]
    unfold checkedMul
    rw [if_pos hOmul]
    dsimp only
    unfold checkedSub
    rw [if_pos hOskip]
    dsimp only
    apply getRangeRev_isSome
    intro k hk
    rw [hO]
    generalize hm : page * size = m at hone hOskip hk ⊢
    omega

/-- C2 witness: on the ten-record listing ledger `L10` with `page = 1`,
`size = 5`, and on the 2^33-record order ledger `OBig` with
`page = 2^32, size = 2` (skip 2^33, above the u32 range but inside the u64
id width of the order ledger), pagination returns normally. -/
theorem index_totality_amended_witness :
    (L10.index 1 5).isSome ∧ (OBig.index 4294967296 2).isSome :=
  ⟨(index_totality_amended L10 OBig 1 5 (by decide)).1
      (fun i => by by_cases hi : i < 10 <;> simp [L10, hi])
      (by decide) (by decide) (by decide),
   (index_totality_amended L10 OBig 4294967296 2 (by decide)).2
      (fun i => by by_cases hi : i < 8589934592 <;> simp [OBig, hi])
      (by decide) (by decide) (by decide)⟩

/-- C3 (conservation). In every reachable state, every stored listing has a
non-negative `available_amount`; and whenever the requested amount exceeds a
listing balance, `create_order` and `withdraw_from_listing` do not succeed —
they return `AmountUnavailable` respectively `InsufficientFunds` once the
authorization check passes. -/
theorem conservation_of_available_amount (s : Escrow) (hs : Reachable s) :
    (∀ i l, s.listings.values i = some l → 0 ≤ l.available_amount) ∧
    (∀ caller lid amount tok l, s.listings.values lid = some l →
      l.available_amount < amount →
      (s.create_order caller lid amount).2 ≠ Outcome.ok ∧
      (l.vendor ≠ caller →
        (s.create_order caller lid amount).2 = Outcome.err EscrowError.AmountUnavailable) ∧
      (s.withdraw_from_listing caller lid amount tok).2 ≠ Outcome.ok ∧
      (l.vendor = caller →
        (s.withdraw_from_listing caller lid amount tok).2 =
          Outcome.err EscrowError.InsufficientFunds)) := by
  have hg := reachable_good hs
  refine ⟨fun i l hm => (hg.1.1 i l hm).2, ?_⟩
  intro caller lid amount tok l hm hgt
  refine ⟨?_, ?_, ?_, ?_⟩
  · simp only [Escrow.create_order, hm]
    by_cases hvc : l.vendor = caller
    · rw [if_pos hvc]
      simp
    · rw [if_neg hvc, if_pos hgt]
      simp
  · intro hvc
    simp only [Escrow.create_order, hm]
    rw [if_neg hvc, if_pos hgt]
  · simp only [Escrow.withdraw_from_listing, hm]
    by_cases hvc : l.vendor ≠ caller
    · rw [if_pos hvc]
      simp
    · rw [if_neg hvc, if_pos hgt]
      simp
  · intro hvc
    simp only [Escrow.withdraw_from_listing, hm]
    rw [if_neg (by simp [hvc]), if_pos hgt]

/-- C3 witness: in the reachable state `sDemo` (listing 0 has balance 10), an
order of 20 by buyer 7 is rejected with `AmountUnavailable`. -/
theorem conservation_of_available_amount_witness :
    (sDemo.create_order 7 0 20).2 ≠ Outcome.ok ∧
    (sDemo.create_order 7 0 20).2 = Outcome.err EscrowError.AmountUnavailable := by
  have h := (conservation_of_available_amount sDemo sDemo_reachable).2 7 0 20 true
    { id := 0, vendor := 5, available_amount := 10 } (by decide) (by decide)
  exact ⟨h.1, h.2.1 (by decide)⟩

/-- C4 (error atomicity). For every state, every operation of the external
interface and every input, if the call returns a typed `EscrowError` then the
persisted state after the call equals the state before it. -/
theorem typed_error_is_clean_noop (s : Escrow) (op : Op) (e : EscrowError)
    (h : (s.applyOp op).2 = Outcome.err e) : (s.applyOp op).1 = s := by
  cases op <;>
    simp only [Escrow.applyOp, Escrow.create_vendor, Escrow.create_listing,
      Escrow.deposit_into_listing, Escrow.create_order,
      Escrow.update_order_payment_verification, Escrow.withdraw_from_listing] at h ⊢ <;>
    (repeat' split at h) <;> simp_all

/-- C4 witness: `create_order` on a fresh contract fails with
`ListingNotFound` and leaves the state untouched. -/
theorem typed_error_is_clean_noop_witness :
    ((Escrow.new 0).applyOp (Op.create_order 3 0 5)).1 = Escrow.new 0 :=
  typed_error_is_clean_noop (Escrow.new 0) (Op.create_order 3 0 5)
    EscrowError.ListingNotFound rfl

/-- C5 (`create_order` functional spec). Unknown listing id gives
`ListingNotFound`; a caller equal to the vendor gives `Unauthorised`; an
amount above the available balance gives `AmountUnavailable`; otherwise the
call succeeds, the listing is persisted with its balance decremented by
exactly `amount`, and a new order is written at id = current order-ledger
length with `buyer = caller`, `vendor = listing.vendor`, the given amount,
no payment verification and status 0 (Open). -/
theorem create_order_spec (s : Escrow) (caller : AccountId) (lid : Nat) (amount : Balance) :
    (s.listings.values lid = none →
      s.create_order caller lid amount = (s, Outcome.err EscrowError.ListingNotFound)) ∧
    (∀ l, s.listings.values lid = some l → l.vendor = caller →
      s.create_order caller lid amount = (s, Outcome.err EscrowError.Unauthorised)) ∧
    (∀ l, s.listings.values lid = some l → l.vendor ≠ caller →
      l.available_amount < amount →
      s.create_order caller lid amount = (s, Outcome.err EscrowError.AmountUnavailable)) ∧
    (∀ l, s.listings.values lid = some l → l.vendor ≠ caller →
      amount ≤ l.available_amount →
      (s.create_order caller lid amount).2 = Outcome.ok ∧
      (s.create_order caller lid amount).1.listings.values l.id =
        some { l with available_amount := l.available_amount - amount } ∧
      (s.create_order caller lid amount).1.orders.values s.orders.length =
        some { id := s.orders.length, buyer := caller, vendor := l.vendor,
               amount := amount, payment_verification := none, status := 0 }) := by
  refine ⟨fun h => ?_, fun l hl hv => ?_, fun l hl hv ha => ?_, fun l hl hv ha => ?_⟩
  · simp [Escrow.create_order, h]
  · simp [Escrow.create_order, hl, hv]
  · simp [Escrow.create_order, hl, hv, ha]
  · simp [Escrow.create_order, hl, hv, not_lt.mpr ha, Orders.create, Listings.update]

/-- C5 witness: in `sDemo` (listing 0 of vendor 5 with balance 10), buyer 7
orders 4: the call succeeds, the listing drops to 6 and order 0 is created
with the specified fields. -/
theorem create_order_spec_witness :
    (sDemo.create_order 7 0 4).2 = Outcome.ok ∧
    (sDemo.create_order 7 0 4).1.listings.values 0 =
      some { id := 0, vendor := 5, available_amount := 6 } ∧
    (sDemo.create_order 7 0 4).1.orders.values 0 =
      some { id := 0, buyer := 7, vendor := 5, amount := 4,
             payment_verification := none, status := 0 } := by
  have h := (create_order_spec sDemo 7 0 4).2.2.2 { id := 0, vendor := 5, available_amount := 10 }
    (by decide) (by decide) (by decide)
  exact ⟨h.1, by simpa using h.2.1, by simpa using h.2.2⟩

/-- C6 (`update_order_payment_verification` functional spec). Unknown order id
gives `OrderNotFound`; a caller other than the buyer gives `Unauthorised`
regardless of status (the buyer check precedes the status checks); status 2
gives `OrderFinalised`; status 3 gives `OrderCancelled`; in every other
status the call succeeds, overwrites `payment_verification` with the evidence
and sets the status to 1 (PendingVerification). -/
theorem update_order_payment_verification_spec (s : Escrow) (caller : AccountId)
    (oid : Nat) (ev : String) :
    (s.orders.values oid = none →
      s.update_order_payment_verification caller oid ev =
        (s, Outcome.err EscrowError.OrderNotFound)) ∧
    (∀ o, s.orders.values oid = some o → o.buyer ≠ caller →
      s.update_order_payment_verification caller oid ev =
        (s, Outcome.err EscrowError.Unauthorised)) ∧
    (∀ o, s.orders.values oid = some o → o.buyer = caller → o.status = 2 →
      s.update_order_payment_verification caller oid ev =
        (s, Outcome.err EscrowError.OrderFinalised)) ∧
    (∀ o, s.orders.values oid = some o → o.buyer = caller → o.status = 3 →
      s.update_order_payment_verification caller oid ev =
        (s, Outcome.err EscrowError.OrderCancelled)) ∧
    (∀ o, s.orders.values oid = some o → o.buyer = caller →
      o.status ≠ 2 → o.status ≠ 3 →
      (s.update_order_payment_verification caller oid ev).2 = Outcome.ok ∧
      (s.update_order_payment_verification caller oid ev).1.orders.values o.id =
        some { o with payment_verification := some ev, status := 1 }) := by
  refine ⟨fun h => ?_, fun o ho hb => ?_, fun o ho hb h2 => ?_,
    fun o ho hb h3 => ?_, fun o ho hb h2 h3 => ?_⟩
  · simp [Escrow.update_order_payment_verification, h]
  · simp [Escrow.update_order_payment_verification, ho, hb]
  · simp [Escrow.update_order_payment_verification, ho, hb, h2]
  · simp [Escrow.update_order_payment_verification, ho, hb, h3]
  · simp [Escrow.update_order_payment_verification, ho, hb, h2, h3, Orders.update]

/-- C6 witness: in `sOrd` (order 0 is Open, buyer 7), the buyer submits
evidence "tx1": the call succeeds, the evidence is stored and the status
becomes 1. -/
theorem update_order_payment_verification_spec_witness :
    (sOrd.update_order_payment_verification 7 0 "tx1").2 = Outcome.ok ∧
    (sOrd.update_order_payment_verification 7 0 "tx1").1.orders.values 0 =
      some { id := 0, buyer := 7, vendor := 5, amount := 4,
             payment_verification := some "tx1", status := 1 } := by
  have h := (update_order_payment_verification_spec sOrd 7 0 "tx1").2.2.2.2
    { id := 0, buyer := 7, vendor := 5, amount := 4,
      payment_verification := none, status := 0 }
    (by decide) (by decide) (by decide) (by decide)
  exact ⟨h.1, by simpa using h.2⟩

/-- C7 (monotonic ids). In every reachable state the occupied ids of both
ledgers are exactly `0..length-1` and every record carries its key as its id;
and every successful `create_listing` writes the new listing at
id = current ledger length, increments the length by one and leaves every
other slot untouched — so creating N listings yields ids 0..N-1 in order,
with no gaps and no reuse. -/
theorem monotonic_ids (s : Escrow) (hs : Reachable s) :
    (∀ i, (s.listings.values i).isSome ↔ i < s.listings.length) ∧
    (∀ i l, s.listings.values i = some l → l.id = i) ∧
    (∀ i, (s.orders.values i).isSome ↔ i < s.orders.length) ∧
    (∀ i o, s.orders.values i = some o → o.id = i) ∧
    (∀ caller, (s.create_listing caller).2 = Outcome.ok →
      (s.create_listing caller).1.listings.length = s.listings.length + 1 ∧
      (s.create_listing caller).1.listings.values s.listings.length =
        some { id := s.listings.length, vendor := caller, available_amount := 0 } ∧
      ∀ i, i ≠ s.listings.length →
        (s.create_listing caller).1.listings.values i = s.listings.values i) := by
  have hg := reachable_good hs
  have hempty : (s.listings.values s.listings.length).isNone = true := by
    have hiff := hg.1.2 s.listings.length
    cases hv : s.listings.values s.listings.length with
    | none => rfl
    | some v => rw [hv] at hiff; simp at hiff
  refine ⟨hg.1.2, fun i l hm => (hg.1.1 i l hm).1, hg.2.2, hg.2.1, ?_⟩
  intro caller hok
  unfold Escrow.create_listing at hok ⊢
  by_cases hcap : s.listings.length = u32Max
  · rw [if_pos hcap] at hok
    exact absurd hok (by simp)
  · rw [if_neg hcap] at hok ⊢
    by_cases hnv : (s.vendors caller).isNone = true
    · rw [if_pos hnv] at hok
      exact absurd hok (by simp)
    · rw [if_neg hnv] at hok ⊢
      refine ⟨?_, ?_, ?_⟩
      · simp [Listings.create, hempty]
      · simp [Listings.create]
      · intro i hi
        simp [Listings.create, hi]

/-- C7 witness: in the reachable state `s1Demo` (vendor 5 registered, empty
ledger), vendor 5 creates a listing: the length becomes 1 and the listing is
stored at id 0. -/
theorem monotonic_ids_witness :
    (s1Demo.create_listing 5).1.listings.length = s1Demo.listings.length + 1 ∧
    (s1Demo.create_listing 5).1.listings.values s1Demo.listings.length =
      some { id := s1Demo.listings.length, vendor := 5, available_amount := 0 } := by
  have h := (monotonic_ids s1Demo s1Demo_reachable).2.2.2.2 5 (by decide)
  exact ⟨h.1, h.2.1⟩

/-- C8 (pagination empty results). For every ledger state, `index` returns
the empty sequence whenever `length = 0`, or the checked multiplication
`page * size` overflows the id-width integer, or `skip = page * size`
exceeds the length. -/
theorem index_empty_cases (L : Listings) (O : Orders) (page size : Nat) :
    (L.length = 0 ∨ u32Mod ≤ page * size ∨ L.length < page * size →
      L.index page size = some []) ∧
    (O.length = 0 ∨ u64Mod ≤ page * size ∨ O.length < page * size →
      O.index page size = some []) := by
  constructor
  · intro h
    by_cases h0 : L.length = 0
    · simp [Listings.index, h0]
    · unfold Listings.index checkedMul checkedSub
      rw [if_neg h0]
      by_cases hm : page * size < u32Mod
      · rw [if_pos hm]
        dsimp only
        rw [if_neg (show ¬ page * size ≤ L.length by omega)]
      · rw [if_neg hm]
  · intro h
    by_cases h0 : O.length = 0
    · simp [Orders.index, h0]
    · unfold Orders.index checkedMul checkedSub
      rw [if_neg h0]
      by_cases hm : page * size < u64Mod
      · rw [if_pos hm]
        dsimp only
        rw [if_neg (show ¬ page * size ≤ O.length by omega)]
      · rw [if_neg hm]

/-- C8 witness: on the ten-record ledgers, `index(page = 5, size = 5)`
(skip 25 > 10) returns the empty sequence. -/
theorem index_empty_cases_witness :
    L10.index 5 5 = some [] ∧ O10.index 5 5 = some [] :=
  ⟨(index_empty_cases L10 O10 5 5).1 (Or.inr (Or.inr (by decide))),
   (index_empty_cases L10 O10 5 5).2 (Or.inr (Or.inr (by decide)))⟩

/-- C9 (capacity boundary). Whenever the listing ledger length equals
`u32::MAX`, `create_listing` returns `ListingLimitReached` for every caller —
vendor or not, so the capacity check precedes the vendor check — and the
state is unchanged. -/
theorem create_listing_capacity_guard (s : Escrow) (caller : AccountId)
    (h : s.listings.length = u32Max) :
    s.create_listing caller = (s, Outcome.err EscrowError.ListingLimitReached) := by
  unfold Escrow.create_listing
  rw [if_pos h]

/-- C9 witness: in `sFull` (ledger at capacity, caller 7 a registered
vendor), `create_listing` still fails with `ListingLimitReached` and mutates
nothing. -/
theorem create_listing_capacity_guard_witness :
    sFull.create_listing 7 = (sFull, Outcome.err EscrowError.ListingLimitReached) :=
  create_listing_capacity_guard sFull 7 rfl

/-- C10 (out-of-range statuses accepted). The status is a raw u8 and
`update_order_payment_verification` rejects only 2 and 3: for every other
status value below 256 — including 5..=255 — a call by the buyer succeeds,
overwrites the payment verification and resets the status to 1. -/
theorem out_of_range_status_accepted (s : Escrow) (caller : AccountId)
    (oid : Nat) (ev : String) (o : Order)
    (ho : s.orders.values oid = some o) (hb : o.buyer = caller)
    (hu8 : o.status < 256) (h2 : o.status ≠ 2) (h3 : o.status ≠ 3) :
    (s.update_order_payment_verification caller oid ev).2 = Outcome.ok ∧
    (s.update_order_payment_verification caller oid ev).1.orders.values o.id =
      some { o with payment_verification := some ev, status := 1 } := by
  clear hu8
  simp [Escrow.update_order_payment_verification, ho, hb, h2, h3, Orders.update]

/-- C10 witness: in `sOdd`, order 0 has the undocumented status 77; the buyer
submits evidence and the call succeeds, resetting the status to 1. -/
theorem out_of_range_status_accepted_witness :
    (sOdd.update_order_payment_verification 7 0 "ev").2 = Outcome.ok ∧
    (sOdd.update_order_payment_verification 7 0 "ev").1.orders.values 0 =
      some { id := 0, buyer := 7, vendor := 5, amount := 4,
             payment_verification := some "ev", status := 1 } :=
  out_of_range_status_accepted sOdd 7 0 "ev" oddOrder
    (by decide) (by decide) (by decide) (by decide) (by decide)
